import Mathlib

/-!
Verification of the mongodb wire-protocol message parser
(`protos/mongodb/mongodb_parser.go`).

Bytes are modelled as `Nat` (values `0..255`); Go byte strings as
`List Nat`.  Go `int` (64-bit) values are modelled as `Int`.  A Go slice
keeps its capacity when re-sliced with `s[:n]`, so the decoder is modelled
with the full underlying buffer `buf`, a view length `len` and the cursor
`i`; a Go runtime panic (slice bound / index out of range) is modelled as
the `none` result of an `Option`.
-/

/-- Byte string of an ASCII Lean string literal. -/
def bs (s : String) : List Nat := s.data.map Char.toNat

/-- Little-endian value of (up to four) bytes, as a natural number.
This is the `uint32` arithmetic of `readInt32` in the source; Go bytes are
always `< 256` so no wrap-around can occur. -/
def le32n (b : List Nat) : Nat :=
  b.getD 0 0 + 256 * b.getD 1 0 + 65536 * b.getD 2 0 + 16777216 * b.getD 3 0

/-- Little-endian value of eight bytes, as a natural number (`uint64`). -/
def le64n (b : List Nat) : Nat :=
  b.getD 0 0 + 256 * b.getD 1 0 + 65536 * b.getD 2 0 + 16777216 * b.getD 3 0
  + 4294967296 * b.getD 4 0 + 1099511627776 * b.getD 5 0
  + 281474976710656 * b.getD 6 0 + 72057594037927936 * b.getD 7 0

/-- Go conversion `int(u)` for a `uint64` value `u` on a 64-bit platform:
two's-complement reinterpretation. -/
def int64OfUInt64 (u : Nat) : Int :=
  if u < 9223372036854775808 then (u : Int) else (u : Int) - 18446744073709551616

/-- Signed (two's-complement) reading of a 32-bit little-endian value, as
the external bson library produces for an `int32` element. -/
def sign32 (u : Nat) : Int :=
  if u < 2147483648 then (u : Int) else (u : Int) - 4294967296

/-- Go `strings.HasSuffix`. -/
def hasSuffix (s suf : List Nat) : Bool := suf.isSuffixOf s

mutual

/-- A decoded bson value, restricted to the element types this
development needs (`int32`, string, embedded document). -/
inductive BsonVal : Type where
  | vInt32 : Int → BsonVal
  | vStr : List Nat → BsonVal
  | vDoc : BsonFields → BsonVal

/-- The ordered field list of a decoded bson document. -/
inductive BsonFields : Type where
  | fnil : BsonFields
  | fcons : List Nat → BsonVal → BsonFields → BsonFields

end

/-- Assoc lookup of a top-level key in a document's field list. -/
def fieldsLookup : BsonFields → List Nat → Option BsonVal
  | .fnil, _ => none
  | .fcons k v rest, key => if k = key then some v else fieldsLookup rest key

/-- Top-level keys of a field list, in document order. -/
def fieldsKeys : BsonFields → List (List Nat)
  | .fnil => []
  | .fcons k _ rest => k :: fieldsKeys rest

/-- Lookup on a possibly-nil `bson.M` (Go: indexing a nil map yields the
zero value with `present = false`). -/
def docLookup (o : Option BsonFields) (key : List Nat) : Option BsonVal :=
  match o with
  | none => none
  | some f => fieldsLookup f key

/-- Split a byte list at its first NUL: the cstring key and the remainder
after the terminator. -/
def splitKey (bytes : List Nat) : Option (List Nat × List Nat) :=
  match bytes.findIdx? (· = 0) with
  | none => none
  | some k => some (bytes.take k, bytes.drop (k + 1))

/-- Modelled from the spec: the external structured-document binary
decoder (`bson.Unmarshal` of the mgo library, out of scope in the source;
spec §2 treats it as "a capability that turns length-prefixed binary into
a generic key/value tree").  Parses the element list of a document body:
a sequence of elements terminated by a single `0x00` byte that must be
the last input byte.  Elements: `0x10 key int32`, `0x02 key int32-length
bytes NUL`, `0x03 key embedded-document`.  `fuel` bounds the recursion
and is instantiated with the byte count, which suffices because every
recursive call consumes at least one byte. -/
def parseElems (fuel : Nat) (bytes : List Nat) : Option BsonFields :=
  match fuel with
  | 0 => none
  | Nat.succ f =>
    match bytes with
    | [0] => some .fnil
    | 16 :: rest =>
      match splitKey rest with
      | none => none
      | some (key, after) =>
        match after with
        | b0 :: b1 :: b2 :: b3 :: rest2 =>
          match parseElems f rest2 with
          | none => none
          | some fs => some (.fcons key (.vInt32 (sign32 (le32n [b0, b1, b2, b3]))) fs)
        | _ => none
    | 2 :: rest =>
      match splitKey rest with
      | none => none
      | some (key, after) =>
        match after with
        | b0 :: b1 :: b2 :: b3 :: rest2 =>
          let slen := le32n [b0, b1, b2, b3]
          if 1 ≤ slen ∧ slen ≤ rest2.length ∧ rest2.getD (slen - 1) 1 = 0 then
            match parseElems f (rest2.drop slen) with
            | none => none
            | some fs => some (.fcons key (.vStr (rest2.take (slen - 1))) fs)
          else none
        | _ => none
    | 3 :: rest =>
      match splitKey rest with
      | none => none
      | some (key, after) =>
        let dlen := le32n (after.take 4)
        if 5 ≤ dlen ∧ dlen ≤ after.length then
          match parseElems f ((after.take dlen).drop 4) with
          | none => none
          | some sub =>
            match parseElems f (after.drop dlen) with
            | none => none
            | some fs => some (.fcons key (.vDoc sub) fs)
        else none
    | _ => none

/-- Modelled from the spec: entry point of the external document decoder.
A document is its little-endian `int32` total length (counting itself),
the element list, and a terminating `0x00`; the declared total length
must equal the byte count handed in. -/
def bsonUnmarshal (bytes : List Nat) : Option BsonFields :=
  if bytes.length < 5 then none
  else if le32n (bytes.take 4) ≠ bytes.length then none
  else parseElems bytes.length (bytes.drop 4)

/-- JSON escaping of a byte string (`"` and `\`; the claims' strings
contain no other characters needing escapes). -/
def jsonEscape : List Nat → List Nat
  | [] => []
  | b :: r =>
    (if b = 34 then [92, 34] else if b = 92 then [92, 92] else [b]) ++ jsonEscape r

/-- A JSON-quoted byte string. -/
def jsonQuote (s : List Nat) : List Nat := 34 :: (jsonEscape s ++ [34])

mutual

/-- The Document Formatter applied to one value: the behaviour of Go's
`encoding/json.Marshal` on the modelled value types (spec §4.4: the
formatter converts the decoded tree to canonical text). -/
def jsonOfVal : BsonVal → List Nat
  | .vInt32 n => bs (toString n)
  | .vStr s => jsonQuote s
  | .vDoc fs => 123 :: (jsonOfFields fs ++ [125])

/-- Comma-separated `"key":value` renderings of a field list, in document
order. -/
def jsonOfFields : BsonFields → List Nat
  | .fnil => []
  | .fcons k v .fnil => jsonQuote k ++ (58 :: jsonOfVal v)
  | .fcons k v (.fcons k2 v2 rest) =>
    jsonQuote k ++ (58 :: jsonOfVal v) ++ (44 :: jsonOfFields (.fcons k2 v2 rest))

end

/-- JSON text of a whole document. -/
def jsonOfDoc (fs : BsonFields) : List Nat := 123 :: (jsonOfFields fs ++ [125])

/-- Source `doc2str` applied to a `bson.M` that may be nil (a failed
`readDocument` returns a nil map; `json.Marshal` of a nil map yields
`null`).  `json.Marshal` cannot fail on the modelled value types, so no
error component is needed. -/
def doc2str (o : Option BsonFields) : List Nat :=
  match o with
  | none => bs "null"
  | some fs => jsonOfDoc fs

/-- A value stored in the event map (`common.MapStr`): the parser stores
ints, strings and the ordered list of document texts. -/
inductive EventVal : Type where
  | eInt : Int → EventVal
  | eStr : List Nat → EventVal
  | eStrList : List (List Nat) → EventVal
deriving DecidableEq

open EventVal

/-- The event map: Go map assignment is modelled as in-place update /
append of an association list. -/
abbrev MapStr := List (List Nat × EventVal)

/-- Map assignment `m[k] = v`. -/
def mset (m : MapStr) (k : List Nat) (v : EventVal) : MapStr :=
  match m with
  | [] => [(k, v)]
  | (k', v') :: rest => if k' = k then (k, v) :: rest else (k', v') :: mset rest k v

/-- Map read `m[k]`. -/
def mget : MapStr → List Nat → Option EventVal
  | [], _ => none
  | (k', v') :: rest, k => if k' = k then some v' else mget rest k

/-- The `MongodbMessage` fields this parser populates. -/
structure MongodbMessage : Type where
  messageLength : Int
  requestId : Int
  responseTo : Int
  opCode : List Nat
  IsResponse : Bool
  ExpectsResponse : Bool
  method : List Nat
  error : List Nat
  event : MapStr
deriving DecidableEq

/-- A fresh message record, as handed to the parser by the stream layer. -/
def emptyMsg : MongodbMessage :=
  { messageLength := 0, requestId := 0, responseTo := 0, opCode := []
    IsResponse := false, ExpectsResponse := false
    method := [], error := [], event := [] }

/-- The Go `decoder` struct: `buf` is the full underlying array of the
slice `in`, `len` its current view length (`len(d.in)`), `i` the cursor.
Re-slicing `d.in = d.in[:length]` changes `len` but keeps the capacity,
so bytes of `buf` beyond `len` stay reachable by slice expressions whose
upper bound does not exceed the capacity (`buf.length`). -/
structure Decoder : Type where
  buf : List Nat
  len : Nat
  i : Nat
deriving DecidableEq

/-- Source `newDecoder`. -/
def newDecoder (data : List Nat) : Decoder := ⟨data, data.length, 0⟩

/-- Source `decoder.truncate`: `d.in = d.in[:length]`.  `none` models the
Go panic when `length` exceeds the capacity. -/
def Decoder.truncate (d : Decoder) (length : Nat) : Option Decoder :=
  if length ≤ d.buf.length then some { d with len := length } else none

/-- Source `decoder.readBytes`: advances the cursor by `length`
unconditionally, errors (`none` value) if the new cursor passes the view
end. -/
def Decoder.readBytes (d : Decoder) (length : Nat) : Option (List Nat) × Decoder :=
  let start := d.i
  let d' := { d with i := d.i + length }
  if d.i + length > d.len then (none, d')
  else (some ((d.buf.drop start).take length), d')

/-- Source `decoder.readInt32`: `int(uint32 little-endian)`.  On a 64-bit
platform the conversion of a `uint32` to `int` is value-preserving, so
the result is always non-negative.  On error the Go function returns
`(0, err)`; the error is the second component. -/
def Decoder.readInt32 (d : Decoder) : Int × Bool × Decoder :=
  match d.readBytes 4 with
  | (none, d') => (0, true, d')
  | (some b, d') => ((le32n b : Int), false, d')

/-- Source `decoder.readInt64`: `int(uint64 little-endian)` — two's
complement on a 64-bit platform. -/
def Decoder.readInt64 (d : Decoder) : Int × Bool × Decoder :=
  match d.readBytes 8 with
  | (none, d') => (0, true, d')
  | (some b, d') => (int64OfUInt64 (le64n b), false, d')

/-- Source `decoder.readCStr`: scans the view for a NUL, advances past
it.  If the scan reaches the view end without a NUL the value is `""`
with an error.  The outer `none` models the Go index-out-of-range panic
that occurs when the cursor already sits past the view end (`d.in[end]`
with `end > len(d.in)`). -/
def Decoder.readCStr (d : Decoder) : Option (List Nat × Bool × Decoder) :=
  let start := d.i
  let l := d.len
  if start > l then none
  else
    let view := (d.buf.take l).drop start
    match view.findIdx? (· = 0) with
    | some k => some (view.take k, false, { d with i := start + k + 1 })
    | none => some ([], true, { d with i := l + 1 })

/-- Source `decoder.readDocument`: reads the 4-byte length prefix (its
read error is discarded — overwritten by the unmarshal error), then sets
`d.i = start + documentLength` unconditionally and hands
`d.in[start:d.i]` to the external document decoder.  That slice
expression is bounded by the capacity, not the view length, so it may
cover bytes beyond the truncated view; it panics (`none`) when
`start + documentLength` exceeds the capacity. -/
def Decoder.readDocument (d : Decoder) : Option (Option BsonFields × Bool × Decoder) :=
  let start := d.i
  let r := d.readInt32
  let documentLength := r.1
  let d2 := { r.2.2 with i := start + documentLength.toNat }
  if start + documentLength.toNat > d.buf.length then none
  else
    let bytes := (d.buf.drop start).take documentLength.toNat
    match bsonUnmarshal bytes with
    | none => some (none, true, d2)
    | some doc => some (some doc, false, d2)

/-- Source `decoder.readDocumentStr`: the error of `readDocument` is
overwritten by the error of `doc2str` (`json.Marshal`), which never
fails on the modelled value types — so the returned error is always
nil. -/
def Decoder.readDocumentStr (d : Decoder) : Option (List Nat × Bool × Decoder) :=
  match d.readDocument with
  | none => none
  | some (documentMap, _err, d') => some (doc2str documentMap, false, d')

/-- Modelled from the spec: the `OpCodes` table (defined outside the
parser source file); spec §3 fixes it as `1→OP_REPLY, 1000→OP_MSG,
2001→OP_UPDATE, 2002→OP_INSERT, 2004→OP_QUERY, 2005→OP_GET_MORE,
2006→OP_DELETE, 2007→OP_KILL_CURSORS`. -/
def OpCodes : List (Int × List Nat) :=
  [(1, bs "OP_REPLY"), (1000, bs "OP_MSG"), (2001, bs "OP_UPDATE"),
   (2002, bs "OP_INSERT"), (2004, bs "OP_QUERY"), (2005, bs "OP_GET_MORE"),
   (2006, bs "OP_DELETE"), (2007, bs "OP_KILL_CURSORS")]

/-- Modelled from the spec: the `UserCommands` list (the Known-Command
Set, defined outside the parser source file); spec §3 gives the examples
`"ismaster", "count", "findAndModify"`, iterated in a fixed order. -/
def UserCommands : List (List Nat) :=
  [bs "ismaster", bs "count", bs "findAndModify"]

/-- Source `opReplyParse` document loop, one clause per `for` iteration.
`first` tracks `i == 0`; `acc` accumulates the `documents` slice in
reverse; `err` is the running `err` variable entering the loop.  After an
iteration `err` holds the error of the last assignment of that
iteration, `documents[i], err = doc2str(document)`, which is always nil
(`json.Marshal` cannot fail on the modelled values); the `$err` branch's
`m.error, err = doc2str(...)` is likewise nil and is immediately
overwritten, so `false` is threaded to the next iteration. -/
def opReplyLoop : Nat → Bool → Decoder → MongodbMessage → List (List Nat) → Bool →
    Option (MongodbMessage × Decoder × List (List Nat) × Bool)
  | 0, _, d, m, acc, err => some (m, d, acc.reverse, err)
  | Nat.succ k, first, d, m, acc, _err =>
    match d.readDocument with
    | none => none
    | some (document, _derr, d') =>
      let m' :=
        if first then
          match docLookup document (bs "$err") with
          | some mongoError => { m with error := jsonOfVal mongoError }
          | none => m
        else m
      opReplyLoop k false d' m' (doc2str document :: acc) false

/-- Source `opReplyParse`. -/
def opReplyParse (d : Decoder) (m : MongodbMessage) : Option (Bool × Bool × MongodbMessage) :=
  let r1 := d.readInt32
  let r2 := r1.2.2.readInt64
  let m1 := { m with event := mset m.event (bs "cursorId") (eInt r2.1) }
  let r3 := r2.2.2.readInt32
  let m2 := { m1 with event := mset m1.event (bs "startingFrom") (eInt r3.1) }
  let r4 := r3.2.2.readInt32
  let numberReturned := r4.1
  let m3 := { m2 with event := mset m2.event (bs "numberReturned") (eInt numberReturned) }
  match opReplyLoop numberReturned.toNat true r4.2.2 m3 [] r4.2.1 with
  | none => none
  | some (m4, _d5, documents, err) =>
    let m5 := { m4 with event := mset m4.event (bs "documents") (eStrList documents) }
    if err then some (false, false, m5) else some (true, true, m5)

/-- Source `opMsgParse`. -/
def opMsgParse (d : Decoder) (m : MongodbMessage) : Option (Bool × Bool × MongodbMessage) :=
  match d.readCStr with
  | none => none
  | some (s, err, _d1) =>
    let m1 := { m with event := mset m.event (bs "message") (eStr s) }
    if err then some (false, false, m1) else some (true, true, m1)

/-- Source `opUpdateParse`.  The final `err` checked is the one of the
last read, `m.event["update"], err = d.readDocumentStr()`, which is
always nil (see `Decoder.readDocumentStr`); earlier read errors are
silently overwritten. -/
def opUpdateParse (d : Decoder) (m : MongodbMessage) : Option (Bool × Bool × MongodbMessage) :=
  let r1 := d.readInt32
  match r1.2.2.readCStr with
  | none => none
  | some (fullCollectionName, _e2, d2) =>
    let m1 := { m with event := mset m.event (bs "fullCollectionName") (eStr fullCollectionName) }
    let r3 := d2.readInt32
    match r3.2.2.readDocumentStr with
    | none => none
    | some (selector, _e4, d4) =>
      let m2 := { m1 with event := mset m1.event (bs "selector") (eStr selector) }
      match d4.readDocumentStr with
      | none => none
      | some (update, err, _d5) =>
        let m3 := { m2 with event := mset m2.event (bs "update") (eStr update) }
        if err then some (false, false, m3) else some (true, true, m3)

/-- Source `opInsertParse`. -/
def opInsertParse (d : Decoder) (m : MongodbMessage) : Option (Bool × Bool × MongodbMessage) :=
  let r1 := d.readInt32
  match r1.2.2.readCStr with
  | none => none
  | some (fullCollectionName, err, _d2) =>
    let m1 := { m with event := mset m.event (bs "fullCollectionName") (eStr fullCollectionName) }
    if err then some (false, false, m1) else some (true, true, m1)

/-- Source `opQueryParse` command-classification loop: `method` starts as
`"otherCommand"` and is overwritten by every element of `UserCommands`
present among the query's top-level keys — the LAST match in table order
wins (the loop has no break). -/
def queryMethodFold (query : Option BsonFields) : List Nat :=
  UserCommands.foldl
    (fun acc command => if (docLookup query command).isSome then command else acc)
    (bs "otherCommand")

/-- Source `opQueryParse` method selection (`if strings.HasSuffix(...)`). -/
def queryMethodSelect (fullCollectionName : List Nat) (query : Option BsonFields) : List Nat :=
  if hasSuffix fullCollectionName (bs ".$cmd") then queryMethodFold query
  else bs "find"

/-- Source `opQueryParse` tail after the optional `returnFieldsSelector`
read: classification and `m.event["query"], err = doc2str(query)`.  That
final `err` is always nil, so the function returns `(true, true)`. -/
def opQueryFinish (m : MongodbMessage) (fullCollectionName : List Nat)
    (query : Option BsonFields) : Option (Bool × Bool × MongodbMessage) :=
  let m1 := { m with method := queryMethodSelect fullCollectionName query }
  let m2 := { m1 with event := mset m1.event (bs "query") (eStr (doc2str query)) }
  some (true, true, m2)

/-- Source `opQueryParse`. -/
def opQueryParse (d : Decoder) (m : MongodbMessage) : Option (Bool × Bool × MongodbMessage) :=
  let r1 := d.readInt32
  match r1.2.2.readCStr with
  | none => none
  | some (fullCollectionName, _e2, d2) =>
    let m1 := { m with event := mset m.event (bs "fullCollectionName") (eStr fullCollectionName) }
    let r3 := d2.readInt32
    let m2 := { m1 with event := mset m1.event (bs "numberToSkip") (eInt r3.1) }
    let r4 := r3.2.2.readInt32
    let m3 := { m2 with event := mset m2.event (bs "numberToReturn") (eInt r4.1) }
    match r4.2.2.readDocument with
    | none => none
    | some (query, _e5, d5) =>
      if d5.i < d5.len then
        match d5.readDocumentStr with
        | none => none
        | some (rfs, _e6, _d6) =>
          let m4 := { m3 with event := mset m3.event (bs "returnFieldsSelector") (eStr rfs) }
          opQueryFinish m4 fullCollectionName query
      else opQueryFinish m3 fullCollectionName query

/-- Source `opGetMoreParse`. -/
def opGetMoreParse (d : Decoder) (m : MongodbMessage) : Option (Bool × Bool × MongodbMessage) :=
  let r1 := d.readInt32
  match r1.2.2.readCStr with
  | none => none
  | some (fullCollectionName, _e2, d2) =>
    let m1 := { m with event := mset m.event (bs "fullCollectionName") (eStr fullCollectionName) }
    let r3 := d2.readInt32
    let m2 := { m1 with event := mset m1.event (bs "numberToReturn") (eInt r3.1) }
    let r4 := r3.2.2.readInt64
    let m3 := { m2 with event := mset m2.event (bs "cursorId") (eInt r4.1) }
    if r4.2.1 then some (false, false, m3) else some (true, true, m3)

/-- Source `opDeleteParse`.  As in `opUpdateParse` the final checked
`err` comes from `readDocumentStr` and is always nil. -/
def opDeleteParse (d : Decoder) (m : MongodbMessage) : Option (Bool × Bool × MongodbMessage) :=
  let r1 := d.readInt32
  match r1.2.2.readCStr with
  | none => none
  | some (fullCollectionName, _e2, d2) =>
    let m1 := { m with event := mset m.event (bs "fullCollectionName") (eStr fullCollectionName) }
    let r3 := d2.readInt32
    match r3.2.2.readDocumentStr with
    | none => none
    | some (selector, err, _d4) =>
      let m2 := { m1 with event := mset m1.event (bs "selector") (eStr selector) }
      if err then some (false, false, m2) else some (true, true, m2)

/-- Source `opKillCursorsParse`: content intentionally not decoded. -/
def opKillCursorsParse (_d : Decoder) (m : MongodbMessage) : Option (Bool × Bool × MongodbMessage) :=
  some (true, true, m)

/-- Source `mongodbMessageParser`: the framer (incomplete data yields the
`(true, false)` NeedMoreData signal with the message untouched), the
header reads (whose individual errors are discarded), the opcode lookup
(absence yields `(false, false)`), and the dispatch that sets
`IsResponse`/`ExpectsResponse`/`method` before the matching extractor
runs.  The result's first component is `ok`, the second `complete`;
`none` models a Go runtime panic. -/
def mongodbMessageParser (data : List Nat) (msg : MongodbMessage) :
    Option (Bool × Bool × MongodbMessage) :=
  let d := newDecoder data
  let r1 := d.readInt32
  let length := r1.1
  if r1.2.1 then some (true, false, msg)
  else if length > (data.length : Int) then some (true, false, msg)
  else
    match r1.2.2.truncate length.toNat with
    | none => none
    | some d2 =>
      let r2 := d2.readInt32
      let r3 := r2.2.2.readInt32
      let r4 := r3.2.2.readInt32
      let opCode := r4.1
      let msgh := { msg with messageLength := length, requestId := r2.1, responseTo := r3.1 }
      match List.lookup opCode OpCodes with
      | none => some (false, false, msgh)
      | some name =>
        let msg4 := { msgh with
          opCode := name, IsResponse := false, ExpectsResponse := false, event := [] }
        let d5 := r4.2.2
        if name = bs "OP_REPLY" then opReplyParse d5 { msg4 with IsResponse := true }
        else if name = bs "OP_MSG" then opMsgParse d5 { msg4 with method := bs "msg" }
        else if name = bs "OP_UPDATE" then opUpdateParse d5 { msg4 with method := bs "update" }
        else if name = bs "OP_INSERT" then opInsertParse d5 { msg4 with method := bs "insert" }
        else if name = bs "OP_QUERY" then opQueryParse d5 { msg4 with ExpectsResponse := true }
        else if name = bs "OP_GET_MORE" then
          opGetMoreParse d5 { msg4 with method := bs "getMore", ExpectsResponse := true }
        else if name = bs "OP_DELETE" then opDeleteParse d5 { msg4 with method := bs "delete" }
        else if name = bs "OP_KILL_CURSORS" then
          opKillCursorsParse d5 { msg4 with method := bs "killCursors" }
        else some (false, false, msg4)

/-- Source: the pure sequence of `readDocument` calls the `opReplyParse`
loop performs, without the event/error bookkeeping; used to state the
loop's behaviour. -/
def readDocs : Nat → Decoder → Option (List (Option BsonFields) × Decoder)
  | 0, d => some ([], d)
  | Nat.succ k, d =>
    match d.readDocument with
    | none => none
    | some (doc, _e, d') =>
      match readDocs k d' with
      | none => none
      | some (docs, dEnd) => some (doc :: docs, dEnd)

/-- Message-level error produced by the `opReplyParse` loop: the
`"$err"` value of the FIRST document only, rendered by the Document
Formatter; `old` when there is no document or no `"$err"` key. -/
def replyErrorValue (old : List Nat) (docs : List (Option BsonFields)) : List Nat :=
  match docs with
  | [] => old
  | doc0 :: _ =>
    match docLookup doc0 (bs "$err") with
    | some v => jsonOfVal v
    | none => old

/-- The value the framer reads as `messageLength` from a raw buffer. -/
def declaredLength (data : List Nat) : Int := ((newDecoder data).readInt32).1

/-- The `requestId` header field as the parser reads it (after the view
is truncated to the declared length). -/
def headerRequestId (data : List Nat) : Int :=
  (Decoder.readInt32 ⟨data, (declaredLength data).toNat, 4⟩).1

/-- The `responseTo` header field as the parser reads it. -/
def headerResponseTo (data : List Nat) : Int :=
  (Decoder.readInt32 ⟨data, (declaredLength data).toNat, 8⟩).1

/-- The `opCode` header field as the parser reads it. -/
def headerOpCode (data : List Nat) : Int :=
  (Decoder.readInt32 ⟨data, (declaredLength data).toNat, 12⟩).1

/-- Spec-following definition, for comparison with the source behaviour
(claim C2's words): the first top-level key of the query document that
matches the Known-Command Set. -/
def specFirstKeyMatch (o : Option BsonFields) : Option (List Nat) :=
  match o with
  | none => none
  | some fs => (fieldsKeys fs).find? (fun k => UserCommands.contains k)

/-- Spec-following definition (claim C9's words): the two's-complement
signed little-endian interpretation of four bytes. -/
def signedLE32 (b : List Nat) : Int := sign32 (le32n b)

/-- The `cursorId` value `opReplyParse` reads. -/
def replyCursorId (d : Decoder) : Int := d.readInt32.2.2.readInt64.1

/-- The `startingFrom` value `opReplyParse` reads. -/
def replyStartingFrom (d : Decoder) : Int := (d.readInt32.2.2.readInt64.2.2.readInt32).1

/-- The `numberReturned` value `opReplyParse` reads. -/
def replyNumberReturned (d : Decoder) : Int :=
  ((d.readInt32.2.2.readInt64.2.2.readInt32).2.2.readInt32).1

/-- The decoder state after the four fixed-width reads of
`opReplyParse`. -/
def replyAfterFixed (d : Decoder) : Decoder :=
  ((d.readInt32.2.2.readInt64.2.2.readInt32).2.2.readInt32).2.2

/-- The message `opReplyParse` produces from `m` when the document loop
reads `docs`: events in insertion order, the `documents` sequence is
`docs` rendered by the Document Formatter in wire order, and `error`
comes from the first document's `"$err"` value only. -/
def replyResultMsg (d : Decoder) (m : MongodbMessage) (docs : List (Option BsonFields)) :
    MongodbMessage :=
  { m with
    error := replyErrorValue m.error docs
    event := mset (mset (mset (mset m.event (bs "cursorId") (eInt (replyCursorId d)))
      (bs "startingFrom") (eInt (replyStartingFrom d)))
      (bs "numberReturned") (eInt (replyNumberReturned d)))
      (bs "documents") (eStrList (docs.map doc2str)) }

/-- The declared length a `readDocument` call reads at the cursor. -/
def declaredDocLen (d : Decoder) : Int := d.readInt32.1

/-- The bytes `readDocument` designates for the external document
decoder: `d.in[start : start+documentLength]` (bounded by the capacity,
not the view length). -/
def designatedBytes (d : Decoder) : List Nat :=
  (d.buf.drop d.i).take (declaredDocLen d).toNat

/-- Little-endian 4-byte encoding of a natural number below `2^32`,
for building concrete wire-format test vectors. -/
def encI32 (n : Nat) : List Nat :=
  [n % 256, n / 256 % 256, n / 65536 % 256, n / 16777216 % 256]

/-- NUL-terminated byte string, for building concrete test vectors. -/
def encCStr (s : String) : List Nat := bs s ++ [0]

/-- Concrete bson document `\x7b"ismaster": 1\x7d` (19 bytes). -/
def queryDocIsmaster : List Nat :=
  encI32 19 ++ [16] ++ encCStr "ismaster" ++ encI32 1 ++ [0]

/-- Concrete bson document `\x7b"age": \x7b"$gt": 5\x7d\x7d` (24 bytes). -/
def queryDocAge : List Nat :=
  encI32 24 ++ [3] ++ encCStr "age"
    ++ (encI32 14 ++ [16] ++ encCStr "$gt" ++ encI32 5 ++ [0]) ++ [0]

/-- Concrete bson document with the two known commands `ismaster` and
`findAndModify` as its top-level keys, in that document order
(38 bytes). -/
def queryDocDual : List Nat :=
  encI32 38 ++ ([16] ++ encCStr "ismaster" ++ encI32 1)
    ++ ([16] ++ encCStr "findAndModify" ++ encI32 1) ++ [0]

/-- A complete OP_QUERY wire message against collection `fcn` with query
document `q` (flags 0, skip 0, return 0). -/
def mkOpQuery (fcn : String) (q : List Nat) : List Nat :=
  let body := encI32 0 ++ encCStr fcn ++ encI32 0 ++ encI32 0 ++ q
  encI32 (16 + body.length) ++ encI32 1 ++ encI32 0 ++ encI32 2004 ++ body

/-- OP_QUERY against `db.$cmd` with query `\x7b"ismaster":1\x7d`. -/
def opQueryCmdData : List Nat := mkOpQuery "db.$cmd" queryDocIsmaster

/-- OP_QUERY against `db.users` with query `\x7b"age":\x7b"$gt":5\x7d\x7d`. -/
def opQueryFindData : List Nat := mkOpQuery "db.users" queryDocAge

/-- OP_QUERY against `a.$cmd` whose query holds two known commands. -/
def opQueryDualData : List Nat := mkOpQuery "a.$cmd" queryDocDual

/-- Concrete bson document `\x7b"$err": "auth failed"\x7d` (27 bytes). -/
def replyErrDoc : List Nat :=
  encI32 27 ++ [2] ++ encCStr "$err" ++ encI32 12 ++ encCStr "auth failed" ++ [0]

/-- Concrete bson document `\x7b"n": 1\x7d` (12 bytes). -/
def replyOkDoc : List Nat :=
  encI32 12 ++ [16] ++ encCStr "n" ++ encI32 1 ++ [0]

/-- A complete OP_REPLY message (75 bytes) with `numberReturned = 2`
whose first document carries `"$err" = "auth failed"`. -/
def replyErrData : List Nat :=
  encI32 75 ++ encI32 7 ++ encI32 5 ++ encI32 1
    ++ encI32 0 ++ List.replicate 8 0 ++ encI32 0 ++ encI32 2
    ++ replyErrDoc ++ replyOkDoc

/-- A complete OP_UPDATE message of 26 bytes: header, reserved zero,
collection `"c"`, flags — and NO bytes for the `selector`/`update`
documents, so both document reads fail. -/
def updateTruncData : List Nat :=
  encI32 26 ++ encI32 2 ++ encI32 0 ++ encI32 2001
    ++ encI32 0 ++ encCStr "c" ++ encI32 0

/-- Concrete bson document `\x7b"a": "LEAKXYZ"\x7d` (20 bytes); in
`queryLeakData` only its 4-byte length prefix lies inside the framed
message. -/
def leakDoc : List Nat :=
  encI32 20 ++ [2] ++ encCStr "a" ++ encI32 8 ++ encCStr "LEAKXYZ" ++ [0]

/-- A 50-byte buffer whose first framed message declares
`messageLength = 34`: an OP_QUERY against `"a"` whose query document
prefix declares 20 bytes, reaching 16 bytes PAST the framed view into
the bytes of the next message (which spell `"LEAKXYZ"`). -/
def queryLeakData : List Nat :=
  encI32 34 ++ encI32 1 ++ encI32 0 ++ encI32 2004
    ++ encI32 0 ++ encCStr "a" ++ encI32 0 ++ encI32 0 ++ leakDoc

/-- A complete OP_MSG message (22 bytes) carrying the cstring
`"hello"`. -/
def opMsgData : List Nat :=
  encI32 22 ++ encI32 0 ++ encI32 0 ++ encI32 1000 ++ encCStr "hello"

/-- The message the parser produces for `opMsgData`. -/
def opMsgResultMsg : MongodbMessage :=
  { messageLength := 22, requestId := 0, responseTo := 0, opCode := bs "OP_MSG"
    IsResponse := false, ExpectsResponse := false
    method := bs "msg", error := [], event := [(bs "message", eStr (bs "hello"))] }

theorem readBytes_ok (d : Decoder) (n : Nat) (h : d.i + n ≤ d.len) :
    d.readBytes n = (some ((d.buf.drop d.i).take n), { d with i := d.i + n }) := by
  unfold Decoder.readBytes
  rw [if_neg (by omega)]

theorem readBytes_errCase (d : Decoder) (n : Nat) (h : d.len < d.i + n) :
    d.readBytes n = (none, { d with i := d.i + n }) := by
  unfold Decoder.readBytes
  rw [if_pos (by omega)]

theorem readInt32_ok (d : Decoder) (h : d.i + 4 ≤ d.len) :
    d.readInt32 = ((le32n ((d.buf.drop d.i).take 4) : Int), false, { d with i := d.i + 4 }) := by
  unfold Decoder.readInt32
  rw [readBytes_ok d 4 h]

theorem readInt32_errCase (d : Decoder) (h : d.len < d.i + 4) :
    d.readInt32 = (0, true, { d with i := d.i + 4 }) := by
  unfold Decoder.readInt32
  rw [readBytes_errCase d 4 h]

theorem readInt32_state (d : Decoder) : d.readInt32.2.2 = { d with i := d.i + 4 } := by
  by_cases hc : d.i + 4 ≤ d.len
  · rw [readInt32_ok d hc]
  · rw [readInt32_errCase d (by omega)]

theorem readInt64_ok (d : Decoder) (h : d.i + 8 ≤ d.len) :
    d.readInt64 = (int64OfUInt64 (le64n ((d.buf.drop d.i).take 8)), false,
      { d with i := d.i + 8 }) := by
  unfold Decoder.readInt64
  rw [readBytes_ok d 8 h]

theorem readInt64_state (d : Decoder) : d.readInt64.2.2 = { d with i := d.i + 8 } := by
  unfold Decoder.readInt64
  by_cases hc : d.i + 8 ≤ d.len
  · rw [readBytes_ok d 8 hc]
  · rw [readBytes_errCase d 8 (by omega)]

/-- C1, helper: on a buffer of fewer than four bytes the first length
read fails. -/
theorem framing_short (data : List Nat) (msg : MongodbMessage) (h : data.length < 4) :
    mongodbMessageParser data msg = some (true, false, msg) := by
  have he := readInt32_errCase (newDecoder data) (by simp [newDecoder]; omega)
  simp [mongodbMessageParser, he]

/-- C1 — For every input buffer, if fewer than 4 bytes are available, or
the declared `messageLength` exceeds the number of available bytes, the
framer returns the NeedMoreData signal `(ok = true, complete = false)`
and consumes zero bytes — the message record is returned untouched and
no failure is reported. -/
theorem mongodb_C1_needMoreData (data : List Nat) (msg : MongodbMessage)
    (h : data.length < 4 ∨ declaredLength data > (data.length : Int)) :
    mongodbMessageParser data msg = some (true, false, msg) := by
  rcases h with hlt | hgt
  · exact framing_short data msg hlt
  · by_cases h4 : data.length < 4
    · exact framing_short data msg h4
    · have hok := readInt32_ok (newDecoder data) (by simp [newDecoder]; omega)
      have hv : (le32n (((newDecoder data).buf.drop (newDecoder data).i).take 4) : Int) =
          declaredLength data := by
        rw [declaredLength, hok]
      simp [mongodbMessageParser, hok, hv, hgt]

/-- C1 witness: a 2-byte buffer, and a 4-byte buffer declaring a 10-byte
message, both yield NeedMoreData with the message untouched. -/
theorem mongodb_C1_needMoreData_witness :
    mongodbMessageParser [1, 2] emptyMsg = some (true, false, emptyMsg)
    ∧ mongodbMessageParser [10, 0, 0, 0] emptyMsg = some (true, false, emptyMsg) :=
  ⟨mongodb_C1_needMoreData [1, 2] emptyMsg (Or.inl (by decide)),
   mongodb_C1_needMoreData [10, 0, 0, 0] emptyMsg (Or.inr (by decide))⟩

/-- Helper shared by the unknown-opcode theorems: whenever framing
succeeds but the opcode lookup fails, the parser returns `(false, false)`
with only the header fields of the message changed. -/
theorem parser_unknownOpcodeResult (data : List Nat) (msg : MongodbMessage)
    (h4 : 4 ≤ data.length) (hle : declaredLength data ≤ (data.length : Int))
    (hunk : List.lookup (headerOpCode data) OpCodes = none) :
    mongodbMessageParser data msg = some (false, false,
      { msg with messageLength := declaredLength data,
                 requestId := headerRequestId data, responseTo := headerResponseTo data })
    ∧ (mongodbMessageParser data msg).map (fun r => r.2.2.event) = some msg.event
    ∧ (mongodbMessageParser data msg).map (fun r => r.2.2.method) = some msg.method := by
  have hok : Decoder.readInt32 ⟨data, data.length, 0⟩
      = ((le32n (data.take 4) : Int), false, ⟨data, data.length, 4⟩) := by
    have h := readInt32_ok ⟨data, data.length, 0⟩ (by simpa using h4)
    simpa using h
  have hdecl : declaredLength data = (le32n (data.take 4) : Int) := by
    have h : declaredLength data = (Decoder.readInt32 ⟨data, data.length, 0⟩).1 := rfl
    rw [h, hok]
  have hnlt : ¬((data.length : Int) < (le32n (data.take 4) : Int)) := by
    rw [← hdecl]; exact not_lt.mpr hle
  have hleN : le32n (data.take 4) ≤ data.length := by
    have h := hdecl ▸ hle
    exact_mod_cast h
  have hunkN := hunk
  simp only [headerOpCode, hdecl, Int.toNat_natCast] at hunkN
  have hmain : mongodbMessageParser data msg = some (false, false,
      { msg with messageLength := declaredLength data,
                 requestId := headerRequestId data, responseTo := headerResponseTo data }) := by
    simp [mongodbMessageParser, newDecoder, hok, hnlt, hleN, Decoder.truncate,
      readInt32_state, hdecl, headerRequestId, headerResponseTo, hunkN]
  exact ⟨hmain, by simp [hmain], by simp [hmain]⟩

/-- C7 — When framing succeeds (at least 4 bytes, declared length within
the buffer) but the opcode is absent from the Opcode Table, the parser
returns the fatal `(false, false)` result; the header fields are set but
the event map and method are left exactly as they were (no event fields
populated). -/
theorem mongodb_C7_unknownOpcode (data : List Nat) (msg : MongodbMessage)
    (h4 : 4 ≤ data.length) (hle : declaredLength data ≤ (data.length : Int))
    (hunk : List.lookup (headerOpCode data) OpCodes = none) :
    mongodbMessageParser data msg = some (false, false,
      { msg with messageLength := declaredLength data,
                 requestId := headerRequestId data, responseTo := headerResponseTo data })
    ∧ (mongodbMessageParser data msg).map (fun r => r.2.2.event) = some msg.event
    ∧ (mongodbMessageParser data msg).map (fun r => r.2.2.method) = some msg.method :=
  parser_unknownOpcodeResult data msg h4 hle hunk

/-- C7 witness: a 16-byte message with opcode 9999 (absent from the
table). -/
theorem mongodb_C7_unknownOpcode_witness :
    mongodbMessageParser
        [16, 0, 0, 0, 0, 0, 0, 0, 0, 0, 0, 0, 15, 39, 0, 0] emptyMsg
      = some (false, false, { emptyMsg with messageLength := 16 }) := by
  have h := (mongodb_C7_unknownOpcode
    [16, 0, 0, 0, 0, 0, 0, 0, 0, 0, 0, 0, 15, 39, 0, 0] emptyMsg
    (by decide) (by decide) (by decide)).1
  rw [h]
  decide

/-- C10 — For a buffer whose declared `messageLength` is at least 4,
fits in the buffer, but is under the 16-byte header size: the header
reads past the truncated view silently yield 0 with the cursor advanced
past the view end (the `opCode` read ends at offset 16 > view length),
the value 0 is looked up in the Opcode Table and is absent, and the
parser returns the plain failure result `(false, false)` — no distinct
truncation error — with the event map untouched and whatever partial
header values were readable. -/
theorem mongodb_C10_shortLength (data : List Nat) (msg : MongodbMessage)
    (h4 : 4 ≤ declaredLength data) (hle : declaredLength data ≤ (data.length : Int))
    (h16 : declaredLength data < 16) :
    Decoder.readInt32 ⟨data, (declaredLength data).toNat, 12⟩
      = (0, true, ⟨data, (declaredLength data).toNat, 16⟩)
    ∧ headerOpCode data = 0
    ∧ List.lookup (0 : Int) OpCodes = none
    ∧ mongodbMessageParser data msg = some (false, false,
        { msg with messageLength := declaredLength data,
                   requestId := headerRequestId data, responseTo := headerResponseTo data })
    ∧ (mongodbMessageParser data msg).map (fun r => r.2.2.event) = some msg.event := by
  have htn16 : (declaredLength data).toNat < 16 := by omega
  have hop : Decoder.readInt32 ⟨data, (declaredLength data).toNat, 12⟩
      = (0, true, ⟨data, (declaredLength data).toNat, 16⟩) := by
    have := readInt32_errCase ⟨data, (declaredLength data).toNat, 12⟩ (by simpa using htn16)
    simpa using this
  have hopv : headerOpCode data = 0 := by rw [headerOpCode, hop]
  have hunk : List.lookup (headerOpCode data) OpCodes = none := by rw [hopv]; rfl
  have h4' : 4 ≤ data.length := by
    have : (4 : Int) ≤ (data.length : Int) := le_trans h4 hle
    exact_mod_cast this
  obtain ⟨hmain, hev, _⟩ := parser_unknownOpcodeResult data msg h4' hle hunk
  exact ⟨hop, hopv, rfl, hmain, hev⟩

/-- C10 witness: the 4-byte buffer `[4,0,0,0]` (declared length 4):
opcode read yields 0 with cursor at 16 past the 4-byte view, lookup of 0
fails, parser returns `(false, false)` with `requestId`/`responseTo`
still zero. -/
theorem mongodb_C10_shortLength_witness :
    mongodbMessageParser [4, 0, 0, 0] emptyMsg
      = some (false, false, { emptyMsg with messageLength := 4 }) := by
  have h := (mongodb_C10_shortLength [4, 0, 0, 0] emptyMsg
    (by decide) (by decide) (by decide)).2.2.2.1
  rw [h]
  decide

theorem lookupValueMem {α β : Type} [BEq α] :
    ∀ (l : List (α × β)) (k : α) (v : β), List.lookup k l = some v → v ∈ l.map Prod.snd := by
  intro l
  induction l with
  | nil => intro k v h; simp [List.lookup] at h
  | cons p rest ih =>
    intro k v h
    rw [List.lookup] at h
    cases hc : k == p.1 <;> rw [hc] at h
    · exact List.mem_cons_of_mem _ (ih k v h)
    · simp only [cond_true, Option.some.injEq] at h
      subst h
      exact List.mem_cons_self _ _

theorem opReplyLoop_fields :
    ∀ (n : Nat) (first : Bool) (d : Decoder) (m : MongodbMessage) (acc : List (List Nat))
      (err : Bool) (m' : MongodbMessage) (d' : Decoder) (docs : List (List Nat)) (e' : Bool),
    opReplyLoop n first d m acc err = some (m', d', docs, e') →
    m'.IsResponse = m.IsResponse ∧ m'.ExpectsResponse = m.ExpectsResponse
      ∧ m'.method = m.method ∧ m'.event = m.event := by
  intro n
  induction n with
  | zero =>
    intro first d m acc err m' d' docs e' h
    simp only [opReplyLoop, Option.some.injEq, Prod.mk.injEq] at h
    obtain ⟨h1, -, -, -⟩ := h
    rw [← h1]
    exact ⟨rfl, rfl, rfl, rfl⟩
  | succ k ih =>
    intro first d m acc err m' d' docs e' h
    simp only [opReplyLoop] at h
    rcases hrd : d.readDocument with - | ⟨document, derr, d1⟩ <;> rw [hrd] at h
    · simp at h
    · have hfields := ih false d1 _ (doc2str document :: acc) false m' d' docs e' h
      have hM : (if first = true then
            match docLookup document (bs "$err") with
            | some mongoError => { m with error := jsonOfVal mongoError }
            | none => m
          else m).IsResponse = m.IsResponse ∧
          (if first = true then
            match docLookup document (bs "$err") with
            | some mongoError => { m with error := jsonOfVal mongoError }
            | none => m
          else m).ExpectsResponse = m.ExpectsResponse ∧
          (if first = true then
            match docLookup document (bs "$err") with
            | some mongoError => { m with error := jsonOfVal mongoError }
            | none => m
          else m).method = m.method ∧
          (if first = true then
            match docLookup document (bs "$err") with
            | some mongoError => { m with error := jsonOfVal mongoError }
            | none => m
          else m).event = m.event := by
        cases first <;> rcases docLookup document (bs "$err") <;> simp
      exact ⟨hfields.1.trans hM.1, (hfields.2.1).trans hM.2.1,
        (hfields.2.2.1).trans hM.2.2.1, (hfields.2.2.2).trans hM.2.2.2⟩

set_option maxHeartbeats 1000000 in
theorem opReplyParse_fields (d : Decoder) (m : MongodbMessage) (r c : Bool)
    (m' : MongodbMessage) (h : opReplyParse d m = some (r, c, m')) :
    m'.IsResponse = m.IsResponse ∧ m'.ExpectsResponse = m.ExpectsResponse
      ∧ m'.method = m.method := by
  simp only [opReplyParse] at h
  split at h
  · simp at h
  · rename_i m4 d5 documents err hloop
    have hfields := opReplyLoop_fields _ _ _ _ _ _ _ _ _ _ hloop
    split at h <;>
    · simp only [Option.some.injEq, Prod.mk.injEq] at h
      obtain ⟨-, -, h3⟩ := h
      rw [← h3]
      exact ⟨hfields.1, hfields.2.1, hfields.2.2.1⟩

theorem opMsgParse_fields (d : Decoder) (m : MongodbMessage) (r c : Bool)
    (m' : MongodbMessage) (h : opMsgParse d m = some (r, c, m')) :
    m'.IsResponse = m.IsResponse ∧ m'.ExpectsResponse = m.ExpectsResponse
      ∧ m'.method = m.method := by
  simp only [opMsgParse] at h
  split at h
  · simp at h
  · split at h <;>
    · simp only [Option.some.injEq, Prod.mk.injEq] at h
      obtain ⟨-, -, h3⟩ := h
      rw [← h3]
      exact ⟨rfl, rfl, rfl⟩

theorem opUpdateParse_fields (d : Decoder) (m : MongodbMessage) (r c : Bool)
    (m' : MongodbMessage) (h : opUpdateParse d m = some (r, c, m')) :
    m'.IsResponse = m.IsResponse ∧ m'.ExpectsResponse = m.ExpectsResponse
      ∧ m'.method = m.method := by
  simp only [opUpdateParse] at h
  split at h
  · simp at h
  · split at h
    · simp at h
    · split at h
      · simp at h
      · split at h <;>
        · simp only [Option.some.injEq, Prod.mk.injEq] at h
          obtain ⟨-, -, h3⟩ := h
          rw [← h3]
          exact ⟨rfl, rfl, rfl⟩

theorem opInsertParse_fields (d : Decoder) (m : MongodbMessage) (r c : Bool)
    (m' : MongodbMessage) (h : opInsertParse d m = some (r, c, m')) :
    m'.IsResponse = m.IsResponse ∧ m'.ExpectsResponse = m.ExpectsResponse
      ∧ m'.method = m.method := by
  simp only [opInsertParse] at h
  split at h
  · simp at h
  · split at h <;>
    · simp only [Option.some.injEq, Prod.mk.injEq] at h
      obtain ⟨-, -, h3⟩ := h
      rw [← h3]
      exact ⟨rfl, rfl, rfl⟩

theorem opQueryParse_flags (d : Decoder) (m : MongodbMessage) (r c : Bool)
    (m' : MongodbMessage) (h : opQueryParse d m = some (r, c, m')) :
    m'.IsResponse = m.IsResponse ∧ m'.ExpectsResponse = m.ExpectsResponse := by
  simp only [opQueryParse, opQueryFinish] at h
  split at h
  · simp at h
  · split at h
    · simp at h
    · split at h
      · split at h
        · simp at h
        · simp only [Option.some.injEq, Prod.mk.injEq] at h
          obtain ⟨-, -, h3⟩ := h
          rw [← h3]
          exact ⟨rfl, rfl⟩
      · simp only [Option.some.injEq, Prod.mk.injEq] at h
        obtain ⟨-, -, h3⟩ := h
        rw [← h3]
        exact ⟨rfl, rfl⟩

theorem opGetMoreParse_fields (d : Decoder) (m : MongodbMessage) (r c : Bool)
    (m' : MongodbMessage) (h : opGetMoreParse d m = some (r, c, m')) :
    m'.IsResponse = m.IsResponse ∧ m'.ExpectsResponse = m.ExpectsResponse
      ∧ m'.method = m.method := by
  simp only [opGetMoreParse] at h
  split at h
  · simp at h
  · split at h <;>
    · simp only [Option.some.injEq, Prod.mk.injEq] at h
      obtain ⟨-, -, h3⟩ := h
      rw [← h3]
      exact ⟨rfl, rfl, rfl⟩

theorem opDeleteParse_fields (d : Decoder) (m : MongodbMessage) (r c : Bool)
    (m' : MongodbMessage) (h : opDeleteParse d m = some (r, c, m')) :
    m'.IsResponse = m.IsResponse ∧ m'.ExpectsResponse = m.ExpectsResponse
      ∧ m'.method = m.method := by
  simp only [opDeleteParse] at h
  split at h
  · simp at h
  · split at h
    · simp at h
    · split at h <;>
      · simp only [Option.some.injEq, Prod.mk.injEq] at h
        obtain ⟨-, -, h3⟩ := h
        rw [← h3]
        exact ⟨rfl, rfl, rfl⟩

set_option maxHeartbeats 2000000 in
/-- C8 — For every successfully framed message with a recognized opcode:
`IsResponse` is true exactly for `OP_REPLY`, `ExpectsResponse` is true
exactly for `OP_QUERY` and `OP_GET_MORE`, and `method` is the fixed
operation name for `OP_MSG`/`OP_UPDATE`/`OP_INSERT`/`OP_GET_MORE`/
`OP_DELETE`, set before or in the matching extractor and intact in the
returned message. -/
theorem mongodb_C8_dispatchFlags (data : List Nat) (msg : MongodbMessage)
    (name : List Nat) (r c : Bool) (m' : MongodbMessage)
    (h4 : 4 ≤ data.length) (hle : declaredLength data ≤ (data.length : Int))
    (hname : List.lookup (headerOpCode data) OpCodes = some name)
    (hparse : mongodbMessageParser data msg = some (r, c, m')) :
    (m'.IsResponse = true ↔ name = bs "OP_REPLY")
    ∧ (m'.ExpectsResponse = true ↔ (name = bs "OP_QUERY" ∨ name = bs "OP_GET_MORE"))
    ∧ (name = bs "OP_MSG" → m'.method = bs "msg")
    ∧ (name = bs "OP_UPDATE" → m'.method = bs "update")
    ∧ (name = bs "OP_INSERT" → m'.method = bs "insert")
    ∧ (name = bs "OP_GET_MORE" → m'.method = bs "getMore")
    ∧ (name = bs "OP_DELETE" → m'.method = bs "delete") := by
  have hok : Decoder.readInt32 ⟨data, data.length, 0⟩
      = ((le32n (data.take 4) : Int), false, ⟨data, data.length, 4⟩) := by
    have h := readInt32_ok ⟨data, data.length, 0⟩ (by simpa using h4)
    simpa using h
  have hdecl : declaredLength data = (le32n (data.take 4) : Int) := by
    have h : declaredLength data = (Decoder.readInt32 ⟨data, data.length, 0⟩).1 := rfl
    rw [h, hok]
  have hnlt : ¬((data.length : Int) < (le32n (data.take 4) : Int)) := by
    rw [← hdecl]; exact not_lt.mpr hle
  have hleN : le32n (data.take 4) ≤ data.length := by
    have h := hdecl ▸ hle
    exact_mod_cast h
  have hnameN := hname
  simp only [headerOpCode, hdecl, Int.toNat_natCast] at hnameN
  have hnames := lookupValueMem OpCodes (headerOpCode data) name hname
  simp only [OpCodes, List.map, List.mem_cons, List.not_mem_nil, or_false] at hnames
  simp [mongodbMessageParser, newDecoder, hok, hnlt, hleN, Decoder.truncate,
    readInt32_state, hnameN] at hparse
  rcases hnames with h1 | h1 | h1 | h1 | h1 | h1 | h1 | h1 <;> subst h1
  · rw [if_pos rfl] at hparse
    have hf := opReplyParse_fields _ _ _ _ _ hparse
    have hIs : m'.IsResponse = true := hf.1
    have hEx : m'.ExpectsResponse = false := hf.2.1
    refine ⟨by rw [hIs]; decide, by rw [hEx]; decide, ?_, ?_, ?_, ?_, ?_⟩ <;>
      intro hx <;> exact absurd hx (by decide)
  · rw [if_neg (by decide), if_pos rfl] at hparse
    have hf := opMsgParse_fields _ _ _ _ _ hparse
    have hIs : m'.IsResponse = false := hf.1
    have hEx : m'.ExpectsResponse = false := hf.2.1
    have hMe : m'.method = bs "msg" := hf.2.2
    refine ⟨by rw [hIs]; decide, by rw [hEx]; decide, ?_, ?_, ?_, ?_, ?_⟩ <;>
      intro hx <;> first | exact hMe | exact absurd hx (by decide)
  · rw [if_neg (by decide), if_neg (by decide), if_pos rfl] at hparse
    have hf := opUpdateParse_fields _ _ _ _ _ hparse
    have hIs : m'.IsResponse = false := hf.1
    have hEx : m'.ExpectsResponse = false := hf.2.1
    have hMe : m'.method = bs "update" := hf.2.2
    refine ⟨by rw [hIs]; decide, by rw [hEx]; decide, ?_, ?_, ?_, ?_, ?_⟩ <;>
      intro hx <;> first | exact hMe | exact absurd hx (by decide)
  · rw [if_neg (by decide), if_neg (by decide), if_neg (by decide), if_pos rfl] at hparse
    have hf := opInsertParse_fields _ _ _ _ _ hparse
    have hIs : m'.IsResponse = false := hf.1
    have hEx : m'.ExpectsResponse = false := hf.2.1
    have hMe : m'.method = bs "insert" := hf.2.2
    refine ⟨by rw [hIs]; decide, by rw [hEx]; decide, ?_, ?_, ?_, ?_, ?_⟩ <;>
      intro hx <;> first | exact hMe | exact absurd hx (by decide)
  · rw [if_neg (by decide), if_neg (by decide), if_neg (by decide), if_neg (by decide),
      if_pos rfl] at hparse
    have hf := opQueryParse_flags _ _ _ _ _ hparse
    have hIs : m'.IsResponse = false := hf.1
    have hEx : m'.ExpectsResponse = true := hf.2
    refine ⟨by rw [hIs]; decide, by rw [hEx]; decide, ?_, ?_, ?_, ?_, ?_⟩ <;>
      intro hx <;> exact absurd hx (by decide)
  · rw [if_neg (by decide), if_neg (by decide), if_neg (by decide), if_neg (by decide),
      if_neg (by decide), if_pos rfl] at hparse
    have hf := opGetMoreParse_fields _ _ _ _ _ hparse
    have hIs : m'.IsResponse = false := hf.1
    have hEx : m'.ExpectsResponse = true := hf.2.1
    have hMe : m'.method = bs "getMore" := hf.2.2
    refine ⟨by rw [hIs]; decide, by rw [hEx]; decide, ?_, ?_, ?_, ?_, ?_⟩ <;>
      intro hx <;> first | exact hMe | exact absurd hx (by decide)
  · rw [if_neg (by decide), if_neg (by decide), if_neg (by decide), if_neg (by decide),
      if_neg (by decide), if_neg (by decide), if_pos rfl] at hparse
    have hf := opDeleteParse_fields _ _ _ _ _ hparse
    have hIs : m'.IsResponse = false := hf.1
    have hEx : m'.ExpectsResponse = false := hf.2.1
    have hMe : m'.method = bs "delete" := hf.2.2
    refine ⟨by rw [hIs]; decide, by rw [hEx]; decide, ?_, ?_, ?_, ?_, ?_⟩ <;>
      intro hx <;> first | exact hMe | exact absurd hx (by decide)
  · rw [if_neg (by decide), if_neg (by decide), if_neg (by decide), if_neg (by decide),
      if_neg (by decide), if_neg (by decide), if_neg (by decide), if_pos rfl] at hparse
    simp only [opKillCursorsParse, Option.some.injEq, Prod.mk.injEq] at hparse
    obtain ⟨-, -, h3⟩ := hparse
    have hIs : m'.IsResponse = false := by rw [← h3]
    have hEx : m'.ExpectsResponse = false := by rw [← h3]
    refine ⟨by rw [hIs]; decide, by rw [hEx]; decide, ?_, ?_, ?_, ?_, ?_⟩ <;>
      intro hx <;> exact absurd hx (by decide)

/-- C8 witness: the 22-byte OP_MSG message `opMsgData`; its parse result
`opMsgResultMsg` has `IsResponse = false`, `ExpectsResponse = false` and
`method = "msg"`. -/
theorem mongodb_C8_dispatchFlags_witness :
    (opMsgResultMsg.IsResponse = true ↔ bs "OP_MSG" = bs "OP_REPLY")
    ∧ (opMsgResultMsg.ExpectsResponse = true
        ↔ (bs "OP_MSG" = bs "OP_QUERY" ∨ bs "OP_MSG" = bs "OP_GET_MORE"))
    ∧ (bs "OP_MSG" = bs "OP_MSG" → opMsgResultMsg.method = bs "msg")
    ∧ (bs "OP_MSG" = bs "OP_UPDATE" → opMsgResultMsg.method = bs "update")
    ∧ (bs "OP_MSG" = bs "OP_INSERT" → opMsgResultMsg.method = bs "insert")
    ∧ (bs "OP_MSG" = bs "OP_GET_MORE" → opMsgResultMsg.method = bs "getMore")
    ∧ (bs "OP_MSG" = bs "OP_DELETE" → opMsgResultMsg.method = bs "delete") :=
  mongodb_C8_dispatchFlags opMsgData emptyMsg (bs "OP_MSG") true true opMsgResultMsg
    (by decide) (by decide) (by decide) (by decide)

/-- C6 — `readDocument` advances the cursor from its start position to
`start + declared document length` unconditionally (whatever the nested
decoder does with the bytes), and fails with the document-decode error
exactly when the designated bytes are not a valid document; the
hypothesis excludes the out-of-capacity case, where Go panics instead. -/
theorem mongodb_C6_readDocument (d : Decoder)
    (hcap : d.i + (declaredDocLen d).toNat ≤ d.buf.length) :
    d.readDocument = some (bsonUnmarshal (designatedBytes d),
      (bsonUnmarshal (designatedBytes d)).isNone,
      { d with i := d.i + (declaredDocLen d).toNat }) := by
  have hlen : d.readInt32.1 = declaredDocLen d := rfl
  have hbytes : (d.buf.drop d.i).take (declaredDocLen d).toNat = designatedBytes d := rfl
  simp only [Decoder.readDocument, hlen, hbytes, readInt32_state]
  rw [if_neg (by omega)]
  rcases hu : bsonUnmarshal (designatedBytes d) with - | doc <;> rfl

/-- C6 witness: reading the 19-byte `ismaster` document from offset 0
succeeds, leaves the cursor at 19, and reports no error. -/
theorem mongodb_C6_readDocument_witness :
    Decoder.readDocument ⟨queryDocIsmaster, 19, 0⟩
      = some (bsonUnmarshal (designatedBytes ⟨queryDocIsmaster, 19, 0⟩),
        (bsonUnmarshal (designatedBytes ⟨queryDocIsmaster, 19, 0⟩)).isNone,
        ⟨queryDocIsmaster, 19, 19⟩) :=
  mongodb_C6_readDocument ⟨queryDocIsmaster, 19, 0⟩ (by decide)

/-- C9 counterexample — the bytes `[0,0,0,0x80]` decode through
`readInt32` to `2147483648` (the unsigned little-endian value), NOT to
the two's-complement signed interpretation `-2147483648` the claim
asserts: the source computes `int(uint32(...))`, which on a 64-bit
platform never yields a negative value. -/
theorem mongodb_C9_counterexample :
    (Decoder.readInt32 ⟨[0, 0, 0, 128], 4, 0⟩).1 = 2147483648
    ∧ signedLE32 [0, 0, 0, 128] = -2147483648
    ∧ (Decoder.readInt32 ⟨[0, 0, 0, 128], 4, 0⟩).1 ≠ signedLE32 [0, 0, 0, 128] := by
  decide

/-- C9 (amended) — each header field read by `readInt32` decodes its four
bytes as the little-endian UNSIGNED 32-bit value (Go `int(uint32(...))`
on a 64-bit platform): the result is `b0 + 256·b1 + 65536·b2 +
16777216·b3`, always non-negative, with the cursor advanced by exactly
4. -/
theorem mongodb_C9_amended (d : Decoder) (b0 b1 b2 b3 : Nat)
    (h : d.i + 4 ≤ d.len) (hb : (d.buf.drop d.i).take 4 = [b0, b1, b2, b3]) :
    d.readInt32 = (((b0 + 256 * b1 + 65536 * b2 + 16777216 * b3 : Nat) : Int), false,
      { d with i := d.i + 4 })
    ∧ 0 ≤ d.readInt32.1 := by
  have hok := readInt32_ok d h
  constructor
  · rw [hok, hb]
    rfl
  · rw [hok]
    exact Int.natCast_nonneg _

/-- C9 amended witness: the four bytes `[0,0,0,0x80]` at cursor 0 decode
to `16777216·128 = 2147483648` with no error and cursor 4. -/
theorem mongodb_C9_amended_witness :
    Decoder.readInt32 ⟨[0, 0, 0, 128], 4, 0⟩
      = ((2147483648 : Int), false, ⟨[0, 0, 0, 128], 4, 4⟩) :=
  (mongodb_C9_amended ⟨[0, 0, 0, 128], 4, 0⟩ 0 0 0 128 (by decide) rfl).1

theorem foldl_overwriteLast {α : Type} (p : α → Bool) :
    ∀ (l : List α) (init : α),
      l.foldl (fun acc c => if p c then c else acc) init
        = ((l.filter p).getLast?).getD init := by
  intro l
  induction l with
  | nil => intro init; rfl
  | cons a t ih =>
    intro init
    rw [List.foldl_cons, List.filter_cons]
    by_cases hp : p a
    · rw [if_pos hp, if_pos hp, ih]
      rw [List.getLast?_cons]
      rfl
    · rw [if_neg hp, if_neg hp, ih]

/-- C2 (amended) — the command-classification loop has no break and each
match OVERWRITES `method`, so the LAST element of the Known-Command Set
(in its fixed iteration order) present among the query's top-level keys
wins, `"otherCommand"` when none matches; a collection name without the
`".$cmd"` suffix always yields `"find"`.  The spec's concrete examples
hold: `db.$cmd` with `ismaster` ⇒ `"ismaster"`, `db.users` ⇒
`"find"`. -/
theorem mongodb_C2_amended :
    (∀ q : Option BsonFields, queryMethodFold q
        = ((UserCommands.filter (fun c => (docLookup q c).isSome)).getLast?).getD
            (bs "otherCommand"))
    ∧ (∀ (fcn : List Nat) (q : Option BsonFields),
        hasSuffix fcn (bs ".$cmd") = true → queryMethodSelect fcn q = queryMethodFold q)
    ∧ (∀ (fcn : List Nat) (q : Option BsonFields),
        hasSuffix fcn (bs ".$cmd") = false → queryMethodSelect fcn q = bs "find")
    ∧ (mongodbMessageParser opQueryCmdData emptyMsg).map (fun rr => rr.2.2.method)
        = some (bs "ismaster")
    ∧ (mongodbMessageParser opQueryFindData emptyMsg).map (fun rr => rr.2.2.method)
        = some (bs "find") := by
  refine ⟨?_, ?_, ?_, rfl, rfl⟩
  · intro q
    exact foldl_overwriteLast (fun c => (docLookup q c).isSome) UserCommands
      (bs "otherCommand")
  · intro fcn q h
    unfold queryMethodSelect
    rw [if_pos h]
  · intro fcn q h
    unfold queryMethodSelect
    rw [if_neg (by simp [h])]

/-- C2 amended witness: the suffix test is discharged concretely for
both branches. -/
theorem mongodb_C2_amended_witness :
    queryMethodSelect (bs "db.$cmd") (bsonUnmarshal queryDocIsmaster)
      = queryMethodFold (bsonUnmarshal queryDocIsmaster)
    ∧ queryMethodSelect (bs "db.users") (bsonUnmarshal queryDocAge) = bs "find" :=
  ⟨mongodb_C2_amended.2.1 (bs "db.$cmd") (bsonUnmarshal queryDocIsmaster) (by decide),
   mongodb_C2_amended.2.2.1 (bs "db.users") (bsonUnmarshal queryDocAge) (by decide)⟩

/-- C2 counterexample — a `$cmd` query whose document holds the known
commands `ismaster` then `findAndModify` (in that top-level key order):
the parser sets `method = "findAndModify"` (the LAST match in
Known-Command-Set order), while the claim's rule — the FIRST top-level
key of the query document matching the set — picks `"ismaster"`. -/
theorem mongodb_C2_counterexample :
    (mongodbMessageParser opQueryDualData emptyMsg).map (fun rr => rr.2.2.method)
      = some (bs "findAndModify")
    ∧ specFirstKeyMatch (bsonUnmarshal queryDocDual) = some (bs "ismaster")
    ∧ bs "findAndModify" ≠ bs "ismaster" := by
  refine ⟨rfl, rfl, by decide⟩

theorem opReplyLoop_false_readDocs :
    ∀ (n : Nat) (d : Decoder) (m : MongodbMessage) (acc : List (List Nat))
      (docs : List (Option BsonFields)) (dEnd : Decoder),
      readDocs n d = some (docs, dEnd) →
      opReplyLoop n false d m acc false
        = some (m, dEnd, acc.reverse ++ docs.map doc2str, false) := by
  intro n
  induction n with
  | zero =>
    intro d m acc docs dEnd h
    simp only [readDocs, Option.some.injEq, Prod.mk.injEq] at h
    obtain ⟨h1, h2⟩ := h
    subst h1; subst h2
    simp [opReplyLoop]
  | succ k ih =>
    intro d m acc docs dEnd h
    simp only [readDocs] at h
    split at h
    · simp at h
    · rename_i document derr d1 hrd
      split at h
      · simp at h
      · rename_i pair docs1 dEnd1 hrec
        simp only [Option.some.injEq, Prod.mk.injEq] at h
        obtain ⟨h1, h2⟩ := h
        subst h1; subst h2
        simp only [opReplyLoop, hrd, Bool.false_eq_true, if_false, ite_false]
        rw [ih d1 m (doc2str document :: acc) docs1 dEnd1 hrec]
        simp

theorem opReplyLoop_true_readDocs (n : Nat) (d : Decoder) (m : MongodbMessage) (err : Bool)
    (docs : List (Option BsonFields)) (dEnd : Decoder)
    (h : readDocs n d = some (docs, dEnd)) :
    opReplyLoop n true d m [] err
      = some ({ m with error := replyErrorValue m.error docs }, dEnd, docs.map doc2str,
          if n = 0 then err else false) := by
  cases n with
  | zero =>
    simp only [readDocs, Option.some.injEq, Prod.mk.injEq] at h
    obtain ⟨h1, h2⟩ := h
    subst h1; subst h2
    simp [opReplyLoop, replyErrorValue]
  | succ k =>
    simp only [readDocs] at h
    split at h
    · simp at h
    · rename_i document derr d1 hrd
      split at h
      · simp at h
      · rename_i pair docs1 dEnd1 hrec
        simp only [Option.some.injEq, Prod.mk.injEq] at h
        obtain ⟨h1, h2⟩ := h
        subst h1; subst h2
        simp only [opReplyLoop, hrd, if_pos rfl]
        rw [opReplyLoop_false_readDocs k d1 _ [doc2str document] docs1 dEnd1 hrec]
        rcases hl : docLookup document (bs "$err") with - | v <;>
          simp [replyErrorValue, hl]

/-- C3 (amended) — for any decoder view holding the 20 fixed OP_REPLY
bytes and whose document region reads as `docs`: the extractor reads
exactly `numberReturned` documents in wire order into
`event["documents"]`, each rendered by the Document Formatter; the
message-level `error` is set from the FIRST document's `"$err"` value
(as its canonical-text rendering, which for a string value includes the
JSON quotes); all documents are collected regardless; `method` is left
untouched; and the extractor reports `(valid, complete) = (true, true)`.
`replyResultMsg` spells all of this out. -/
theorem mongodb_C3_amended (d : Decoder) (m : MongodbMessage)
    (docs : List (Option BsonFields)) (dEnd : Decoder)
    (h20 : d.i + 20 ≤ d.len)
    (hdocs : readDocs (replyNumberReturned d).toNat (replyAfterFixed d)
      = some (docs, dEnd)) :
    opReplyParse d m = some (true, true, replyResultMsg d m docs)
    ∧ (replyResultMsg d m docs).method = m.method := by
  have hs1 : d.readInt32.2.2 = { d with i := d.i + 4 } := readInt32_state d
  have hs2 : ({ d with i := d.i + 4 } : Decoder).readInt64.2.2
      = { d with i := d.i + 12 } := by
    rw [readInt64_state]
  have hs3 : ({ d with i := d.i + 12 } : Decoder).readInt32.2.2
      = { d with i := d.i + 16 } := by
    rw [readInt32_state]
  have he4 : (({ d with i := d.i + 16 } : Decoder).readInt32).2.1 = false := by
    rw [readInt32_ok { d with i := d.i + 16 } (by simp; omega)]
  have hafter : replyAfterFixed d = (({ d with i := d.i + 16 } : Decoder).readInt32).2.2 := by
    unfold replyAfterFixed
    rw [hs1, hs2, hs3]
  have hnum : replyNumberReturned d = (({ d with i := d.i + 16 } : Decoder).readInt32).1 := by
    unfold replyNumberReturned
    rw [hs1, hs2, hs3]
  rw [hafter, hnum] at hdocs
  refine ⟨?_, rfl⟩
  simp only [opReplyParse, hs1, hs2, hs3]
  rw [opReplyLoop_true_readDocs _ _ _ _ _ _ hdocs]
  rw [he4]
  have herr : (if ((({ d with i := d.i + 16 } : Decoder).readInt32).1).toNat = 0
      then false else false) = false := by
    rcases h : ((({ d with i := d.i + 16 } : Decoder).readInt32).1).toNat <;> rfl
  simp only [herr, Bool.false_eq_true, if_false, ite_false]
  unfold replyResultMsg replyCursorId replyStartingFrom replyNumberReturned
  rw [hs1, hs2, hs3]

/-- C3 amended witness: the concrete 75-byte OP_REPLY buffer with two
documents, decoded from the post-header state `⟨replyErrData, 75, 16⟩`. -/
theorem mongodb_C3_amended_witness :
    opReplyParse ⟨replyErrData, 75, 16⟩ emptyMsg
      = some (true, true, replyResultMsg ⟨replyErrData, 75, 16⟩ emptyMsg
          [bsonUnmarshal replyErrDoc, bsonUnmarshal replyOkDoc]) :=
  (mongodb_C3_amended ⟨replyErrData, 75, 16⟩ emptyMsg
    [bsonUnmarshal replyErrDoc, bsonUnmarshal replyOkDoc] ⟨replyErrData, 75, 75⟩
    (by decide) (by rfl)).1

/-- C3 counterexample — on the concrete OP_REPLY whose first document
carries `"$err" = "auth failed"`, both documents are collected and the
parse succeeds, but the surfaced message-level `error` is the JSON
rendering `"auth failed"` WITH the quote characters (13 bytes), not the
bare string `auth failed` the claim states. -/
theorem mongodb_C3_counterexample :
    (mongodbMessageParser replyErrData emptyMsg).map (fun rr => (rr.1, rr.2.1, rr.2.2.error))
      = some (true, true, bs "\"auth failed\"")
    ∧ bs "\"auth failed\"" ≠ bs "auth failed"
    ∧ (mongodbMessageParser replyErrData emptyMsg).map
        (fun rr => mget rr.2.2.event (bs "documents"))
      = some (some (eStrList [doc2str (bsonUnmarshal replyErrDoc),
          doc2str (bsonUnmarshal replyOkDoc)])) := by
  refine ⟨rfl, by decide, rfl⟩

/-- C4 (code evaluation) — the claim says an early field-read failure
short-circuits the extractor to invalid; the code instead lets every
later read overwrite `err`.  On the 26-byte OP_UPDATE message
`updateTruncData` the `selector` document read — performed at decoder
state `⟨updateTruncData, 26, 26⟩` (header 16 + reserved 4 + `"c"` NUL 2
+ flags 4) — FAILS (second conjunct), yet the extractor stores `"null"`
for the selector and returns `(valid, complete) = (true, true)` because
`readDocumentStr` replaces the document error with the always-nil
`json.Marshal` error. -/
theorem mongodb_C4_lastErrorWins :
    (mongodbMessageParser updateTruncData emptyMsg).map (fun rr => (rr.1, rr.2.1))
      = some (true, true)
    ∧ (Decoder.readDocument ⟨updateTruncData, 26, 26⟩).map (fun rr => rr.2.1) = some true
    ∧ (mongodbMessageParser updateTruncData emptyMsg).map
        (fun rr => mget rr.2.2.event (bs "selector")) = some (some (eStr (bs "null"))) := by
  refine ⟨rfl, rfl, rfl⟩

/-- C5 (code evaluation) — the framer narrows the view to
`messageLength = 34` bytes, but `readDocument` slices the underlying
buffer up to the capacity: on `queryLeakData` the query document's
declared length reaches 16 bytes past the view, and the extractor
succeeds, storing query text that contains the byte `75` (`'K'` of
`"LEAKXYZ"`) even though no byte of the first 34 (the framed message)
equals `75` — the bytes came from beyond `messageLength`. -/
theorem mongodb_C5_readBeyondView :
    (mongodbMessageParser queryLeakData emptyMsg).map
        (fun rr => (rr.1, rr.2.1, rr.2.2.messageLength)) = some (true, true, 34)
    ∧ (mongodbMessageParser queryLeakData emptyMsg).map
        (fun rr => mget rr.2.2.event (bs "query"))
      = some (some (eStr (bs "\x7b\"a\":\"LEAKXYZ\"\x7d")))
    ∧ (75 : Nat) ∈ bs "\x7b\"a\":\"LEAKXYZ\"\x7d"
    ∧ (queryLeakData.take 34).all (fun b => b != 75) = true
    ∧ queryLeakData.length = 50 := by
  refine ⟨rfl, rfl, by decide, by decide, rfl⟩
